import Mathlib

/-!
# Verification of bifrost `src/server/appstate.rs`

A shallow embedding of `AppState` (construction from config, TLS config
loading, and the two API-descriptor derivations) over an explicit
filesystem model.  File contents are modelled abstractly by what the
program observes of them (a parseable YAML document, a PEM blob with an
embedded identity, or opaque malformed bytes); filesystem operations are
explicit state passing, and fallible operations return `Except`.

Collaborator modules of the repository that are not part of the source
under verification (the `certificate` module, `State`, `Resources`, the
`hue::legacy_api` structs) are modelled from the specification; each such
definition says so in its doc comment.  Third-party behaviour
(`camino::Utf8Path::with_extension`, `RustlsConfig::from_pem_file`,
`serde_yml::from_reader`, `std::fs`) is modelled after the documented
semantics of those libraries.
-/

set_option autoImplicit false

deriving instance DecidableEq for Except

namespace Bifrost

/-- A 6-byte MAC-like hardware identifier (`config.bridge.mac`).
Bytes are `Nat`s; only their values below 256 are ever used. -/
structure MacAddress where
  b0 : Nat
  b1 : Nat
  b2 : Nat
  b3 : Nat
  b4 : Nat
  b5 : Nat
deriving DecidableEq, Repr

/-- Hex digit character for a value below 16. -/
def hexDigit (n : Nat) : Char :=
  if n < 10 then Char.ofNat (48 + n) else Char.ofNat (97 + (n - 10))

/-- Two lowercase hex digits of a byte. -/
def hexByte (b : Nat) : List Char :=
  [hexDigit (b / 16 % 16), hexDigit (b % 16)]

/-- Modelled from the spec: `certificate::hue_bridge_id` (the `certificate`
module is not under `src/`).  "a derived, deterministic string computed from
HardwareIdentifier (e.g., a 16-hex-character bridge ID)", "hex-encode the
identifier bytes, optionally with a fixed prefix/suffix scheme matching the
emulated vendor's convention": the six MAC bytes hex-encoded with the
vendor's fixed `fffe` infix, giving 16 hex characters. -/
def hue_bridge_id (m : MacAddress) : String :=
  String.mk (hexByte m.b0 ++ hexByte m.b1 ++ hexByte m.b2
    ++ [Char.ofNat 102, Char.ofNat 102, Char.ofNat 102, Char.ofNat 101]
    ++ hexByte m.b3 ++ hexByte m.b4 ++ hexByte m.b5)

/-- The raw deserialized state document, as `serde_yml::from_reader`
produces it.  Modelled from the spec: "version is discoverable from
document shape/fields" — an optional version marker plus an opaque
field payload (the field-level schema belongs to a collaborator). -/
structure YamlDoc where
  versionTag : Option Nat
  payload : List (String × String)
deriving DecidableEq, Repr

/-- What the program observes of a file's bytes: a parseable YAML document,
a PEM certificate+key blob with an embedded identity, or malformed bytes
(distinguished by an id so that distinct contents stay distinct). -/
inductive FileData where
  | yaml (doc : YamlDoc)
  | pem (identity : String)
  | malformed (id : Nat)
deriving DecidableEq, Repr

/-- A `serde_yml::Error`: it is produced from the byte stream alone
(`from_reader` receives only a reader), so it is a function of content,
never of a path. -/
inductive SerdeError where
  | parse (contentId : Nat)
deriving DecidableEq, Repr

/-- An I/O error kind, as distinguished by the code under verification. -/
inductive IoErr where
  | notFound
  | permissionDenied
  | renameFailed
deriving DecidableEq, Repr

/-- Human-readable rendering of an I/O error (what ends up inside a
wrapping error's cause). -/
def ioMsg : IoErr → String
  | IoErr.notFound => "not found"
  | IoErr.permissionDenied => "permission denied"
  | IoErr.renameFailed => "rename failed"

/-- The `ApiError` variants reachable from the code under verification.
`certificate` is the one variant that carries a path (built explicitly at
the call sites that have one); `serdeYaml` and `ioError` are the `From`
conversions the `?` operator applies, and a `From` impl receives only the
underlying error value, so they carry no path.  `stateVersion` is the
unknown-version error of `State::version`. -/
inductive ApiError where
  | certificate (path : String) (cause : String)
  | serdeYaml (e : SerdeError)
  | ioError (e : IoErr)
  | stateVersion (v : Nat)
deriving DecidableEq, Repr

/-- The path an error reports, when it carries one. -/
def ApiError.reportsPath : ApiError → Option String
  | ApiError.certificate p _ => some p
  | _ => none

/-- Association-list lookup for file tables (first match wins). -/
def lookupFd : List (String × FileData) → String → Option FileData
  | [], _ => none
  | (k, v) :: t, p => if p = k then some v else lookupFd t p

/-- Remove every entry for a key from a file table. -/
def eraseKey : List (String × FileData) → String → List (String × FileData)
  | [], _ => []
  | (k, v) :: t, p => if k = p then eraseKey t p else (k, v) :: eraseKey t p

/-- The filesystem: an association list from paths to contents, plus
injected failure sets for writes, renames and opens (a path listed in
`unreadable` exists on disk but `File::open`-style access fails on it,
e.g. permission denied). -/
structure Fs where
  files : List (String × FileData)
  writeFails : List String
  renameFails : List (String × String)
  unreadable : List String
deriving DecidableEq, Repr

/-- `Utf8Path::is_file`: the path names an existing file. -/
def Fs.isFile (fs : Fs) (p : String) : Bool :=
  (lookupFd fs.files p).isSome

/-- `File::open` followed by reading: succeeds iff the file exists and is
readable, and yields its content. -/
def Fs.openFile (fs : Fs) (p : String) : Except IoErr FileData :=
  if p ∈ fs.unreadable then Except.error IoErr.permissionDenied
  else
    match lookupFd fs.files p with
    | some d => Except.ok d
    | none => Except.error IoErr.notFound

/-- Write (create or overwrite) a file. -/
def Fs.write (fs : Fs) (p : String) (d : FileData) : Except IoErr Fs :=
  if p ∈ fs.writeFails then Except.error IoErr.permissionDenied
  else
    Except.ok { fs with files := (p, d) :: eraseKey fs.files p }

/-- `std::fs::rename`: atomically moves `src` to `dst` (replacing `dst`),
failing when the environment injects a failure or `src` does not exist. -/
def Fs.rename (fs : Fs) (src dst : String) : Except IoErr Fs :=
  if (src, dst) ∈ fs.renameFails then Except.error IoErr.renameFailed
  else
    match lookupFd fs.files src with
    | none => Except.error IoErr.notFound
    | some d =>
        Except.ok { fs with files := (dst, d) :: eraseKey (eraseKey fs.files src) dst }

/-- `serde_yml::from_reader` on already-read content: parses iff the bytes
are a well-formed YAML document; the error is computed from the content
alone. -/
def parseYaml : FileData → Except SerdeError YamlDoc
  | FileData.yaml doc => Except.ok doc
  | FileData.pem _ => Except.error (SerdeError.parse 0)
  | FileData.malformed id => Except.error (SerdeError.parse id)

/-- Split a character list around the last occurrence of `c`. -/
def splitOnLast (c : Char) : List Char → Option (List Char × List Char)
  | [] => none
  | x :: xs =>
    match splitOnLast c xs with
    | some (b, a) => some (x :: b, a)
    | none => if x = c then some ([], xs) else none

/-- The file-name part of a path (after the last separator) and its
directory part (up to and including the last separator). -/
def splitDir (p : List Char) : List Char × List Char :=
  match splitOnLast (Char.ofNat 47) p with
  | some (b, a) => (b ++ [Char.ofNat 47], a)
  | none => ([], p)

/-- The stem of a file name: everything before the final dot, except that
a name whose only dot is a leading one (".bashrc") has no extension and
is its own stem — the `std::path`/`camino` rule. -/
def fileStem (n : List Char) : List Char :=
  match splitOnLast (Char.ofNat 46) n with
  | none => n
  | some ([], _) => n
  | some (b, _) => b

/-- `camino::Utf8Path::with_extension` (same semantics as
`std::path::Path::with_extension`): REPLACE the file name's extension with
`ext` (appending `.ext` when there is none).  Paths without a regular file
name are returned unchanged, as `set_extension` leaves them. -/
def with_extension (p : String) (ext : String) : String :=
  let l := p.toList
  let dn := splitDir l
  if dn.2 = [] ∨ dn.2 = [Char.ofNat 46] ∨ dn.2 = [Char.ofNat 46, Char.ofNat 46] then p
  else
    String.mk (dn.1 ++ fileStem dn.2
      ++ (if ext.isEmpty then [] else Char.ofNat 46 :: ext.toList))

/-- The on-disk schema versions (`model::state::StateVersion`, declared
outside `src/`; shape per the spec's state machine over `{V0, V1}`). -/
inductive StateVersion where
  | V0
  | V1
deriving DecidableEq, Repr

/-- The current in-memory state representation.  Modelled from the spec:
the field-level schema belongs to the resource/domain collaborator, so the
model keeps the version tag plus the opaque field payload. -/
structure State where
  schemaVersion : Nat
  payload : List (String × String)
deriving DecidableEq, Repr

/-- Modelled from the spec: `State::version` — "detect version by
inspecting the raw deserialized document (version is discoverable from
document shape/fields)": a document without the version marker is legacy
V0, marker 1 is current V1, anything else is an error. -/
def State.version (y : YamlDoc) : Except ApiError StateVersion :=
  match y.versionTag with
  | none => Except.ok StateVersion.V0
  | some 1 => Except.ok StateVersion.V1
  | some v => Except.error (ApiError.stateVersion v)

/-- Modelled from the spec: `State::from_v0` — "Transform the V0 document
into the current in-memory representation field-by-field; any field absent
in V0 takes a defined default." -/
def State.from_v0 (y : YamlDoc) : Except ApiError State :=
  Except.ok { schemaVersion := 1, payload := y.payload }

/-- Modelled from the spec: `State::from_v1` — "deserialize directly into
the current representation; no transformation." -/
def State.from_v1 (y : YamlDoc) : Except ApiError State :=
  Except.ok { schemaVersion := 1, payload := y.payload }

/-- Modelled from the spec: `State::new` — "synthesize an empty state". -/
def State.new : State :=
  { schemaVersion := 1, payload := [] }

/-- The in-memory resource store (`resource::Resources`, declared outside
`src/`).  Modelled from the spec: it wraps the loaded state; `seeded`
records the identity its one-time initialization step was run with
(`none` until `init` runs). -/
structure Resources where
  state : State
  seeded : Option String
deriving DecidableEq, Repr

/-- `Resources::new`: wrap a state, not yet initialized. -/
def Resources.new (s : State) : Resources :=
  { state := s, seeded := none }

/-- Modelled from the spec: `Resources::init` — "run a one-time
initialization step that seeds it with the DeviceIdentity-derived default
configuration (e.g., bridge identity, default network settings)". -/
def Resources.init (r : Resources) (id : String) : Except ApiError Resources :=
  Except.ok { r with seeded := some id }

/-- `config.bridge`: the bridge section of the validated runtime config. -/
structure BridgeConfig where
  mac : MacAddress
  ipaddress : String
  netmask : String
  gateway : String
  timezone : String
deriving DecidableEq, Repr

/-- `config.bifrost`: the file-path section of the runtime config. -/
structure BifrostConfig where
  cert_file : String
  state_file : String
deriving DecidableEq, Repr

/-- `AppConfig`: the immutable startup configuration (only the fields the
code under verification consumes). -/
structure AppConfig where
  bifrost : BifrostConfig
  bridge : BridgeConfig
deriving DecidableEq, Repr

/-- `AppState`: the shared runtime handle.  The `Arc`/`Mutex` wrappers are
sharing devices with no bearing on the verified claims; note the struct
holds only the config and the resources — no certificate material is
cached in it. -/
structure AppState where
  conf : AppConfig
  res : Resources
deriving DecidableEq, Repr

/-- Modelled from the spec: `certificate::generate_and_save` — "generate a
new self-signed certificate/key pair whose embedded identity equals
`DeviceIdentity(hardware_id)`, persist both to `path`"; a filesystem write
failure surfaces as a typed `CertificateError` carrying the path and
cause. -/
def generate_and_save (path : String) (mac : MacAddress) (fs : Fs) :
    Except ApiError Unit × Fs :=
  match fs.write path (FileData.pem (hue_bridge_id mac)) with
  | Except.ok fs1 => (Except.ok (), fs1)
  | Except.error e => (Except.error (ApiError.certificate path (ioMsg e)), fs)

/-- Modelled from the spec: `certificate::check_certificate` — "if `path`
names an existing file, parse it and verify the embedded identity matches
`DeviceIdentity(hardware_id)`; on match, return the existing record
unchanged.  On mismatch, ..., generate a new self-signed certificate/key
pair ... and persist both to `path`"; malformed PEM or unreadable
permissions surface as a typed `CertificateError` with the path and
cause. -/
def check_certificate (path : String) (mac : MacAddress) (fs : Fs) :
    Except ApiError Unit × Fs :=
  match fs.openFile path with
  | Except.error e => (Except.error (ApiError.certificate path (ioMsg e)), fs)
  | Except.ok (FileData.pem id) =>
      if id = hue_bridge_id mac then (Except.ok (), fs)
      else generate_and_save path mac fs
  | Except.ok _ => (Except.error (ApiError.certificate path ("malformed PEM")), fs)

/-- Lines 25–33 of `from_config`: validate the certificate if the file
exists, otherwise generate and save a fresh one. -/
def certStep (config : AppConfig) (fs : Fs) : Except ApiError Unit × Fs :=
  if fs.isFile config.bifrost.cert_file then
    check_certificate config.bifrost.cert_file config.bridge.mac fs
  else
    generate_and_save config.bifrost.cert_file config.bridge.mac fs

/-- Lines 35–58 of `from_config`: open the state file if possible; on
success deserialize it, detect its version, migrate V0 documents (renaming
the original to the `with_extension "v0.bak"` sibling first) or load V1
directly; when the open fails, initialize a fresh state seeded with the
bridge id. -/
def loadState (config : AppConfig) (fs : Fs) : Except ApiError Resources × Fs :=
  match fs.openFile config.bifrost.state_file with
  | Except.ok fd =>
    match parseYaml fd with
    | Except.error e => (Except.error (ApiError.serdeYaml e), fs)
    | Except.ok yaml =>
      match State.version yaml with
      | Except.error e => (Except.error e, fs)
      | Except.ok StateVersion.V0 =>
        match fs.rename config.bifrost.state_file
            (with_extension config.bifrost.state_file ("v0.bak")) with
        | Except.error e => (Except.error (ApiError.ioError e), fs)
        | Except.ok fs2 =>
          match State.from_v0 yaml with
          | Except.error e => (Except.error e, fs2)
          | Except.ok st => (Except.ok (Resources.new st), fs2)
      | Except.ok StateVersion.V1 =>
        match State.from_v1 yaml with
        | Except.error e => (Except.error e, fs)
        | Except.ok st => (Except.ok (Resources.new st), fs)
  | Except.error _ =>
    match (Resources.new State.new).init (hue_bridge_id config.bridge.mac) with
    | Except.error e => (Except.error e, fs)
    | Except.ok res => (Except.ok res, fs)

/-- `AppState::from_config` (lines 24–64): certificate step, then state
load, then assemble the handle.  Filesystem effects are threaded
explicitly; the second component is the filesystem after the call whether
it succeeds or fails. -/
def AppState.from_config (config : AppConfig) (fs : Fs) :
    Except ApiError AppState × Fs :=
  match certStep config fs with
  | (Except.error e, fs1) => (Except.error e, fs1)
  | (Except.ok _, fs1) =>
    match loadState config fs1 with
    | (Except.error e, fs2) => (Except.error e, fs2)
    | (Except.ok res, fs2) => (Except.ok { conf := config, res := res }, fs2)

/-- The TLS configuration object `RustlsConfig::from_pem_file` builds:
it holds the certificate material and the key material as read from the
two argument paths. -/
structure RustlsConfig where
  certSource : FileData
  keySource : FileData
deriving DecidableEq, Repr

/-- `axum_server::tls_rustls::RustlsConfig::from_pem_file` (external
crate): read the certificate path and the key path and build a TLS
configuration from their contents; a missing/unreadable file or a non-PEM
content is an error whose message depends only on what was read. -/
def RustlsConfig.from_pem_file (certPath keyPath : String) (fs : Fs) :
    Except String RustlsConfig :=
  match fs.openFile certPath with
  | Except.error e => Except.error (ioMsg e)
  | Except.ok cd =>
    match cd with
    | FileData.pem _ =>
      match fs.openFile keyPath with
      | Except.error e => Except.error (ioMsg e)
      | Except.ok kd =>
        match kd with
        | FileData.pem _ => Except.ok { certSource := cd, keySource := kd }
        | _ => Except.error ("invalid key")
    | _ => Except.error ("invalid certificate")

/-- `AppState::tls_config` (lines 66–73): load a `RustlsConfig` from the
configured certificate file, passing that one path as both the
certificate and the key source, and wrap any failure in
`ApiError::Certificate` together with the path.  The filesystem at call
time is an explicit argument: the method holds no cached material. -/
def AppState.tls_config (s : AppState) (fs : Fs) : Except ApiError RustlsConfig :=
  match RustlsConfig.from_pem_file s.conf.bifrost.cert_file s.conf.bifrost.cert_file fs with
  | Except.ok c => Except.ok c
  | Except.error e => Except.error (ApiError.certificate s.conf.bifrost.cert_file e)

/-- The short API descriptor (`hue::legacy_api::ApiShortConfig`, declared
outside `src/`).  Modelled from the spec: "a short descriptor (identity +
hardware id)" plus defaulted firmware fields. -/
structure ApiShortConfig where
  bridgeid : String
  mac : MacAddress
  apiversion : String
  swversion : String
  name : String
deriving DecidableEq, Repr

/-- Modelled from the spec: the `Default` instance of `ApiShortConfig`
(fixed values, independent of any configuration). -/
def ApiShortConfig.default : ApiShortConfig :=
  { bridgeid := ""
    mac := { b0 := 0, b1 := 0, b2 := 0, b3 := 0, b4 := 0, b5 := 0 }
    apiversion := "1.66.0"
    swversion := "1966060010"
    name := "Bifrost" }

/-- A whitelist entry (`hue::legacy_api::Whitelist`): creation and
last-use timestamps plus a display name.  Timestamps are abstract clock
readings. -/
structure Whitelist where
  create_date : Nat
  last_use_date : Nat
  name : String
deriving DecidableEq, Repr

/-- The full API descriptor (`hue::legacy_api::ApiConfig`, declared
outside `src/`).  Modelled from the spec: short descriptor + network
config + per-caller access-credential map, plus a defaulted remainder
field standing for the fields `..ApiConfig::default()` fills. -/
structure ApiConfig where
  short_config : ApiShortConfig
  ipaddress : String
  netmask : String
  gateway : String
  timezone : String
  whitelist : List (String × Whitelist)
  portalservices : Bool
deriving DecidableEq, Repr

/-- Modelled from the spec: the `Default` instance of `ApiConfig`. -/
def ApiConfig.default : ApiConfig :=
  { short_config := ApiShortConfig.default
    ipaddress := ""
    netmask := ""
    gateway := ""
    timezone := ""
    whitelist := []
    portalservices := false }

/-- `AppState::api_short_config` (lines 80–88): bridge id derived from the
configured mac, the mac itself, everything else from `Default`. -/
def AppState.api_short_config (s : AppState) : ApiShortConfig :=
  { ApiShortConfig.default with
    bridgeid := hue_bridge_id s.conf.bridge.mac
    mac := s.conf.bridge.mac }

/-- `AppState::api_config` (lines 90–108): the full descriptor.  The two
`Utc::now()` calls are modelled by the single clock reading `now` taken at
call time. -/
def AppState.api_config (s : AppState) (username : String) (now : Nat) : ApiConfig :=
  { ApiConfig.default with
    short_config := s.api_short_config
    ipaddress := s.conf.bridge.ipaddress
    netmask := s.conf.bridge.netmask
    gateway := s.conf.bridge.gateway
    timezone := s.conf.bridge.timezone
    whitelist := [(username,
      { create_date := now, last_use_date := now, name := "User#foo" })] }

/-! ## Concrete fixtures used by witnesses and counterexamples -/

/-- A concrete hardware identifier, `AA:BB:CC:DD:EE:FF`. -/
def macW : MacAddress :=
  { b0 := 170, b1 := 187, b2 := 204, b3 := 221, b4 := 238, b5 := 255 }

/-- The identity derived from `macW` (evaluates to "aabbccfffeddeeff"). -/
def idW : String := hue_bridge_id macW

/-- A concrete runtime configuration. -/
def cfgW : AppConfig :=
  { bifrost := { cert_file := "cert.pem", state_file := "state.yaml" }
    bridge := { mac := macW, ipaddress := "10.0.0.2", netmask := "255.255.255.0",
                gateway := "10.0.0.1", timezone := "Europe/Copenhagen" } }

/-- A concrete V0-shaped state document (no version marker). -/
def docV0 : YamlDoc := { versionTag := none, payload := [("light1", "on")] }

/-- Valid matching certificate, V0 state file, no injected failures. -/
def fsV0 : Fs :=
  { files := [("cert.pem", FileData.pem idW), ("state.yaml", FileData.yaml docV0)]
    writeFails := [], renameFails := [], unreadable := [] }

/-- Valid matching certificate, V0 state file, rename of the state file to
its backup path fails. -/
def fsRenameFail : Fs :=
  { files := [("cert.pem", FileData.pem idW), ("state.yaml", FileData.yaml docV0)]
    writeFails := [], renameFails := [("state.yaml", "state.v0.bak")], unreadable := [] }

/-- Valid matching certificate, state file exists but cannot be opened. -/
def fsUnreadable : Fs :=
  { files := [("cert.pem", FileData.pem idW), ("state.yaml", FileData.yaml docV0)]
    writeFails := [], renameFails := [], unreadable := ["state.yaml"] }

/-- Valid matching certificate, no state file. -/
def fsMissing : Fs :=
  { files := [("cert.pem", FileData.pem idW)]
    writeFails := [], renameFails := [], unreadable := [] }

/-- Certificate present but with a mismatched embedded identity; no state
file. -/
def fsMismatch : Fs :=
  { files := [("cert.pem", FileData.pem "wrongid")]
    writeFails := [], renameFails := [], unreadable := [] }

/-- Empty filesystem. -/
def fsEmpty : Fs :=
  { files := [], writeFails := [], renameFails := [], unreadable := [] }

/-- Config whose state file is `a.yaml`. -/
def cfgC4a : AppConfig :=
  { cfgW with bifrost := { cert_file := "cert.pem", state_file := "a.yaml" } }

/-- Config whose state file is `b.yaml`. -/
def cfgC4b : AppConfig :=
  { cfgW with bifrost := { cert_file := "cert.pem", state_file := "b.yaml" } }

/-- Malformed state document (content id 7) at `a.yaml`. -/
def fsC4a : Fs :=
  { files := [("cert.pem", FileData.pem idW), ("a.yaml", FileData.malformed 7)]
    writeFails := [], renameFails := [], unreadable := [] }

/-- The same malformed content at `b.yaml`. -/
def fsC4b : Fs :=
  { files := [("cert.pem", FileData.pem idW), ("b.yaml", FileData.malformed 7)]
    writeFails := [], renameFails := [], unreadable := [] }

/-- The freshly initialized resources the absent-state branch produces:
an empty state seeded with the identity derived from the configured
hardware identifier. -/
def freshRes (config : AppConfig) : Resources :=
  { state := State.new, seeded := some (hue_bridge_id config.bridge.mac) }

/-- The filesystem after `generate_and_save` rewrote the certificate
file with a certificate embedding the derived identity. -/
def regenFs (config : AppConfig) (fs : Fs) : Fs :=
  { fs with
      files := (config.bifrost.cert_file, FileData.pem (hue_bridge_id config.bridge.mac)) ::
        eraseKey fs.files config.bifrost.cert_file }

/-- The filesystem after the V0 migration renamed the state file (with
content `d`) to its `with_extension "v0.bak"` backup sibling. -/
def renamedFs (config : AppConfig) (fs : Fs) (d : FileData) : Fs :=
  { fs with
      files := (with_extension config.bifrost.state_file ("v0.bak"), d) ::
        eraseKey (eraseKey fs.files config.bifrost.state_file)
          (with_extension config.bifrost.state_file ("v0.bak")) }

/-- The TLS configuration built from the combined PEM file of `fsV0`. -/
def tlsW : RustlsConfig := { certSource := FileData.pem idW, keySource := FileData.pem idW }

/-- A handle over `cfgW` with uninitialized resources. -/
def stA : AppState := { conf := cfgW, res := Resources.new State.new }

/-- A handle over `cfgW` with differently-initialized resources. -/
def stB : AppState :=
  { conf := cfgW, res := { state := State.new, seeded := some idW } }

/-! ## Helper lemmas -/

theorem lookupFd_eraseKey_self (l : List (String × FileData)) (p : String) :
    lookupFd (eraseKey l p) p = none := by
  induction l with
  | nil => rfl
  | cons kv t ih =>
    obtain ⟨k, v⟩ := kv
    by_cases h : k = p
    · simpa [eraseKey, h] using ih
    · have h2 : ¬p = k := fun hc => h hc.symm
      simpa [eraseKey, h, lookupFd, h2] using ih

theorem lookupFd_eraseKey_other (l : List (String × FileData)) (p q : String)
    (hne : p ≠ q) : lookupFd (eraseKey l q) p = lookupFd l p := by
  induction l with
  | nil => rfl
  | cons kv t ih =>
    obtain ⟨k, v⟩ := kv
    by_cases h : k = q
    · simpa [eraseKey, h, lookupFd, hne] using ih
    · by_cases hp : p = k
      · simp [eraseKey, h, lookupFd, hp]
      · simpa [eraseKey, h, lookupFd, hp] using ih

theorem openFile_err_of_lookup_none (fs : Fs) (p : String)
    (h : lookupFd fs.files p = none) : ∃ e, fs.openFile p = Except.error e := by
  unfold Fs.openFile
  by_cases hu : p ∈ fs.unreadable
  · exact ⟨IoErr.permissionDenied, by simp [hu]⟩
  · exact ⟨IoErr.notFound, by simp [hu, h]⟩

theorem lookup_of_openFile_ok (fs : Fs) (p : String) (d : FileData)
    (h : fs.openFile p = Except.ok d) : lookupFd fs.files p = some d := by
  unfold Fs.openFile at h
  by_cases hu : p ∈ fs.unreadable
  · simp [hu] at h
  · rw [if_neg hu] at h
    cases hl : lookupFd fs.files p with
    | none => rw [hl] at h; exact absurd h (by simp)
    | some d0 => rw [hl] at h; cases h; rfl

theorem loadState_openErr (config : AppConfig) (fs : Fs) (e : IoErr)
    (h : fs.openFile config.bifrost.state_file = Except.error e) :
    loadState config fs = (Except.ok (freshRes config), fs) := by
  simp only [loadState, h, Resources.init, Resources.new, freshRes]

theorem loadState_parseErr (config : AppConfig) (fs : Fs) (d : FileData) (e : SerdeError)
    (ho : fs.openFile config.bifrost.state_file = Except.ok d)
    (hp : parseYaml d = Except.error e) :
    loadState config fs = (Except.error (ApiError.serdeYaml e), fs) := by
  simp only [loadState, ho, hp]

theorem loadState_v0_renameFail (config : AppConfig) (fs : Fs) (d : FileData) (y : YamlDoc)
    (ho : fs.openFile config.bifrost.state_file = Except.ok d)
    (hp : parseYaml d = Except.ok y)
    (hv : State.version y = Except.ok StateVersion.V0)
    (hmem : (config.bifrost.state_file,
      with_extension config.bifrost.state_file ("v0.bak")) ∈ fs.renameFails) :
    loadState config fs = (Except.error (ApiError.ioError IoErr.renameFailed), fs) := by
  simp only [loadState, ho, hp, hv, Fs.rename, hmem, if_pos]

theorem rename_ok_shape (fs : Fs) (src dst : String) (d : FileData)
    (hnf : (src, dst) ∉ fs.renameFails)
    (hl : lookupFd fs.files src = some d) :
    fs.rename src dst =
      Except.ok { fs with files := (dst, d) :: eraseKey (eraseKey fs.files src) dst } := by
  simp only [Fs.rename, hnf, if_neg, ite_false, hl]

theorem loadState_v0_ok (config : AppConfig) (fs : Fs) (d : FileData) (y : YamlDoc) (fs2 : Fs)
    (ho : fs.openFile config.bifrost.state_file = Except.ok d)
    (hp : parseYaml d = Except.ok y)
    (hv : State.version y = Except.ok StateVersion.V0)
    (hr : fs.rename config.bifrost.state_file
      (with_extension config.bifrost.state_file ("v0.bak")) = Except.ok fs2) :
    loadState config fs =
      (Except.ok (Resources.new { schemaVersion := 1, payload := y.payload }), fs2) := by
  simp only [loadState, ho, hp, hv, hr, State.from_v0]

theorem from_config_of_certStep_loadState (config : AppConfig) (fs fs1 fs2 : Fs)
    (r : Except ApiError Resources)
    (hcert : certStep config fs = (Except.ok (), fs1))
    (hload : loadState config fs1 = (r, fs2)) :
    AppState.from_config config fs =
      (match r with
       | Except.error e => Except.error e
       | Except.ok res => Except.ok { conf := config, res := res }, fs2) := by
  cases r with
  | error e => simp only [AppState.from_config, hcert, hload]
  | ok res => simp only [AppState.from_config, hcert, hload]

/-! ## Claim theorems -/

/-- Claim C6: with no state file present, construction succeeds with an
empty state initialized with the identity derived from the configured
hardware identifier (the bridge id computed from `config.bridge.mac`),
not a placeholder. -/
theorem from_config_no_state_inits_with_identity
    (config : AppConfig) (fs fs1 : Fs)
    (hcert : certStep config fs = (Except.ok (), fs1))
    (hnone : lookupFd fs1.files config.bifrost.state_file = none) :
    AppState.from_config config fs = (Except.ok { conf := config, res := freshRes config }, fs1) := by
  obtain ⟨e, he⟩ := openFile_err_of_lookup_none fs1 _ hnone
  exact from_config_of_certStep_loadState config fs fs1 fs1
    (Except.ok (freshRes config)) hcert (loadState_openErr config fs1 e he)

/-- Witness for C6 at the concrete missing-state fixture. -/
theorem from_config_no_state_inits_with_identity_witness :
    AppState.from_config cfgW fsMissing =
      (Except.ok { conf := cfgW, res := freshRes cfgW }, fsMissing) :=
  from_config_no_state_inits_with_identity cfgW fsMissing fsMissing (by decide) (by decide)

/-- Claim C2 counterexample: a configuration whose state file exists but
cannot be opened, on which construction nevertheless SUCCEEDS (with a
fresh seeded state) instead of failing as the claim demands. -/
theorem from_config_unreadable_state_succeeds_cex :
    lookupFd fsUnreadable.files cfgW.bifrost.state_file = some (FileData.yaml docV0) ∧
    cfgW.bifrost.state_file ∈ fsUnreadable.unreadable ∧
    (AppState.from_config cfgW fsUnreadable).1 =
      Except.ok { conf := cfgW, res := freshRes cfgW } := by
  refine ⟨by decide, by decide, by decide⟩

/-- Claim C2 as amended: a state file that exists but cannot be opened is
treated exactly like an absent one — construction succeeds with a freshly
initialized state seeded with the derived identity; it does not fail. -/
theorem from_config_unreadable_state_inits_fresh
    (config : AppConfig) (fs fs1 : Fs) (d : FileData)
    (hcert : certStep config fs = (Except.ok (), fs1))
    (hex : lookupFd fs1.files config.bifrost.state_file = some d)
    (hunread : config.bifrost.state_file ∈ fs1.unreadable) :
    AppState.from_config config fs = (Except.ok { conf := config, res := freshRes config }, fs1) := by
  have he : fs1.openFile config.bifrost.state_file = Except.error IoErr.permissionDenied := by
    simp [Fs.openFile, hunread]
  exact from_config_of_certStep_loadState config fs fs1 fs1
    (Except.ok (freshRes config)) hcert
    (loadState_openErr config fs1 IoErr.permissionDenied he)

/-- Witness for the amended C2 at the concrete unreadable-state fixture. -/
theorem from_config_unreadable_state_inits_fresh_witness :
    AppState.from_config cfgW fsUnreadable =
      (Except.ok { conf := cfgW, res := freshRes cfgW }, fsUnreadable) :=
  from_config_unreadable_state_inits_fresh cfgW fsUnreadable fsUnreadable
    (FileData.yaml docV0) (by decide) (by decide) (by decide)

/-- Claim C3 counterexample: migrating the V0 state file `state.yaml`
leaves the backup at `state.v0.bak` (extension REPLACED), while nothing
exists at the appended path `state.yaml.v0.bak` the claim names. -/
theorem migration_backup_path_append_cex :
    State.version docV0 = Except.ok StateVersion.V0 ∧
    lookupFd fsV0.files ("state.yaml") = some (FileData.yaml docV0) ∧
    lookupFd ((AppState.from_config cfgW fsV0).2).files ("state.yaml.v0.bak") = none ∧
    lookupFd ((AppState.from_config cfgW fsV0).2).files ("state.v0.bak") =
      some (FileData.yaml docV0) ∧
    lookupFd ((AppState.from_config cfgW fsV0).2).files ("state.yaml") = none := by
  refine ⟨by decide, by decide, by decide, by decide, by decide⟩

/-- Claim C3 as amended: for a V0-version state file at path P, migration
renames the original to the sibling obtained by REPLACING P's extension
with `v0.bak` (appending it only when P has no extension), the file at
that backup path contains exactly the original content, the original path
is gone, and the load succeeds with the migrated state. -/
theorem migration_backup_replaces_extension
    (config : AppConfig) (fs fs1 : Fs) (d : FileData) (y : YamlDoc)
    (hcert : certStep config fs = (Except.ok (), fs1))
    (hopen : fs1.openFile config.bifrost.state_file = Except.ok d)
    (hparse : parseYaml d = Except.ok y)
    (hv : State.version y = Except.ok StateVersion.V0)
    (hren : (config.bifrost.state_file,
      with_extension config.bifrost.state_file ("v0.bak")) ∉ fs1.renameFails)
    (hne : with_extension config.bifrost.state_file ("v0.bak") ≠ config.bifrost.state_file) :
    lookupFd ((AppState.from_config config fs).2).files
        (with_extension config.bifrost.state_file ("v0.bak")) = some d ∧
    lookupFd ((AppState.from_config config fs).2).files config.bifrost.state_file = none ∧
    (AppState.from_config config fs).1 =
      Except.ok { conf := config,
                  res := Resources.new { schemaVersion := 1, payload := y.payload } } := by
  have hl : lookupFd fs1.files config.bifrost.state_file = some d :=
    lookup_of_openFile_ok fs1 _ d hopen
  have hr := rename_ok_shape fs1 config.bifrost.state_file
    (with_extension config.bifrost.state_file ("v0.bak")) d hren hl
  have hfc := from_config_of_certStep_loadState config fs fs1 _
    (Except.ok (Resources.new { schemaVersion := 1, payload := y.payload })) hcert
    (loadState_v0_ok config fs1 d y _ hopen hparse hv hr)
  rw [hfc]
  have h1 : ¬config.bifrost.state_file = with_extension config.bifrost.state_file ("v0.bak") :=
    fun hc => hne hc.symm
  refine ⟨by simp [lookupFd], ?_, rfl⟩
  simp only [lookupFd, h1, if_false, ite_false, if_neg]
  rw [lookupFd_eraseKey_other _ _ _ h1]
  exact lookupFd_eraseKey_self fs1.files config.bifrost.state_file

/-- Witness for the amended C3 at the concrete V0 fixture. -/
theorem migration_backup_replaces_extension_witness :
    lookupFd ((AppState.from_config cfgW fsV0).2).files
        (with_extension cfgW.bifrost.state_file ("v0.bak")) = some (FileData.yaml docV0) ∧
    lookupFd ((AppState.from_config cfgW fsV0).2).files cfgW.bifrost.state_file = none ∧
    (AppState.from_config cfgW fsV0).1 =
      Except.ok { conf := cfgW,
                  res := Resources.new { schemaVersion := 1, payload := docV0.payload } } :=
  migration_backup_replaces_extension cfgW fsV0 fsV0 (FileData.yaml docV0) docV0
    (by decide) (by decide) (by decide) (by decide) (by decide) (by decide)

/-- Claim C4 counterexample: two configurations whose state files differ
but hold the same malformed content produce the IDENTICAL error, and that
error carries no path — construction fails, but the error cannot report
the offending state-file path. -/
theorem malformed_state_error_lacks_path_cex :
    (AppState.from_config cfgC4a fsC4a).1 =
      Except.error (ApiError.serdeYaml (SerdeError.parse 7)) ∧
    (AppState.from_config cfgC4b fsC4b).1 =
      Except.error (ApiError.serdeYaml (SerdeError.parse 7)) ∧
    cfgC4a.bifrost.state_file ≠ cfgC4b.bifrost.state_file ∧
    (ApiError.serdeYaml (SerdeError.parse 7)).reportsPath = none := by
  refine ⟨by decide, by decide, by decide, by decide⟩

/-- Claim C4 as amended: a malformed state document makes construction
fail, but the error is the deserialization error converted as-is, which
carries no state-file path. -/
theorem from_config_malformed_state_fails_pathless
    (config : AppConfig) (fs fs1 : Fs) (d : FileData) (e : SerdeError)
    (hcert : certStep config fs = (Except.ok (), fs1))
    (hopen : fs1.openFile config.bifrost.state_file = Except.ok d)
    (hparse : parseYaml d = Except.error e) :
    AppState.from_config config fs = (Except.error (ApiError.serdeYaml e), fs1) ∧
    (ApiError.serdeYaml e).reportsPath = none := by
  refine ⟨?_, rfl⟩
  exact from_config_of_certStep_loadState config fs fs1 fs1
    (Except.error (ApiError.serdeYaml e)) hcert
    (loadState_parseErr config fs1 d e hopen hparse)

/-- Witness for the amended C4 at the concrete malformed fixture. -/
theorem from_config_malformed_state_fails_pathless_witness :
    AppState.from_config cfgC4a fsC4a =
      (Except.error (ApiError.serdeYaml (SerdeError.parse 7)), fsC4a) ∧
    (ApiError.serdeYaml (SerdeError.parse 7)).reportsPath = none :=
  from_config_malformed_state_fails_pathless cfgC4a fsC4a fsC4a
    (FileData.malformed 7) (SerdeError.parse 7) (by decide) (by decide) (by decide)

/-- Claim C5: for a V0 state file, when the rename of the original to its
backup path fails, the whole load fails with that rename error, no state
is produced, and the filesystem is untouched — the original file still
holds its original content (the rename is sequenced before the V0
transform, whose result is discarded). -/
theorem migration_rename_failure_aborts
    (config : AppConfig) (fs fs1 : Fs) (d : FileData) (y : YamlDoc)
    (hcert : certStep config fs = (Except.ok (), fs1))
    (hopen : fs1.openFile config.bifrost.state_file = Except.ok d)
    (hparse : parseYaml d = Except.ok y)
    (hv : State.version y = Except.ok StateVersion.V0)
    (hmem : (config.bifrost.state_file,
      with_extension config.bifrost.state_file ("v0.bak")) ∈ fs1.renameFails) :
    AppState.from_config config fs =
      (Except.error (ApiError.ioError IoErr.renameFailed), fs1) ∧
    lookupFd ((AppState.from_config config fs).2).files config.bifrost.state_file = some d := by
  have hfc := from_config_of_certStep_loadState config fs fs1 fs1
    (Except.error (ApiError.ioError IoErr.renameFailed)) hcert
    (loadState_v0_renameFail config fs1 d y hopen hparse hv hmem)
  refine ⟨hfc, ?_⟩
  rw [hfc]
  exact lookup_of_openFile_ok fs1 _ d hopen

/-- Witness for C5 at the concrete injected-rename-failure fixture. -/
theorem migration_rename_failure_aborts_witness :
    AppState.from_config cfgW fsRenameFail =
      (Except.error (ApiError.ioError IoErr.renameFailed), fsRenameFail) ∧
    lookupFd ((AppState.from_config cfgW fsRenameFail).2).files cfgW.bifrost.state_file =
      some (FileData.yaml docV0) :=
  migration_rename_failure_aborts cfgW fsRenameFail fsRenameFail (FileData.yaml docV0) docV0
    (by decide) (by decide) (by decide) (by decide) (by decide)

theorem loadState_versionErr (config : AppConfig) (fs : Fs) (d : FileData) (y : YamlDoc)
    (e : ApiError)
    (ho : fs.openFile config.bifrost.state_file = Except.ok d)
    (hp : parseYaml d = Except.ok y)
    (hv : State.version y = Except.error e) :
    loadState config fs = (Except.error e, fs) := by
  simp only [loadState, ho, hp, hv]

theorem loadState_v1_ok (config : AppConfig) (fs : Fs) (d : FileData) (y : YamlDoc)
    (ho : fs.openFile config.bifrost.state_file = Except.ok d)
    (hp : parseYaml d = Except.ok y)
    (hv : State.version y = Except.ok StateVersion.V1) :
    loadState config fs =
      (Except.ok (Resources.new { schemaVersion := 1, payload := y.payload }), fs) := by
  simp only [loadState, ho, hp, hv, State.from_v1]

theorem version_err_shape (y : YamlDoc) (e : ApiError)
    (hv : State.version y = Except.error e) : ∃ v, e = ApiError.stateVersion v := by
  unfold State.version at hv
  cases ht : y.versionTag with
  | none => rw [ht] at hv; exact absurd hv (by simp)
  | some v =>
    rw [ht] at hv
    match v, hv with
    | 0, hv => exact ⟨0, by cases hv; rfl⟩
    | 1, hv => exact absurd hv (by simp)
    | Nat.succ (Nat.succ n), hv => exact ⟨n + 2, by cases hv; rfl⟩

/-- Case analysis of `loadState`: the resulting filesystem is either
untouched or has exactly the V0 backup rename applied, and the resulting
error (when any) is never a certificate error. -/
theorem loadState_fs_and_errors (config : AppConfig) (fs : Fs) :
    ((loadState config fs).2 = fs ∨
      (∃ d y, fs.openFile config.bifrost.state_file = Except.ok d ∧
        parseYaml d = Except.ok y ∧
        (loadState config fs).2 = renamedFs config fs d)) ∧
    ∀ p c, (loadState config fs).1 ≠ Except.error (ApiError.certificate p c) := by
  cases ho : fs.openFile config.bifrost.state_file with
  | error e =>
    rw [loadState_openErr config fs e ho]
    exact ⟨Or.inl rfl, fun p c => by simp⟩
  | ok d =>
    cases hp : parseYaml d with
    | error e =>
      rw [loadState_parseErr config fs d e ho hp]
      exact ⟨Or.inl rfl, fun p c => by simp⟩
    | ok y =>
      cases hv : State.version y with
      | error e =>
        obtain ⟨v, hvv⟩ := version_err_shape y e hv
        rw [loadState_versionErr config fs d y e ho hp hv, hvv]
        exact ⟨Or.inl rfl, fun p c => by simp⟩
      | ok ver =>
        cases ver with
        | V1 =>
          rw [loadState_v1_ok config fs d y ho hp hv]
          exact ⟨Or.inl rfl, fun p c => by simp⟩
        | V0 =>
          cases hr : fs.rename config.bifrost.state_file
              (with_extension config.bifrost.state_file ("v0.bak")) with
          | error e2 =>
            have hls : loadState config fs =
                (Except.error (ApiError.ioError e2), fs) := by
              simp only [loadState, ho, hp, hv, hr]
            rw [hls]
            exact ⟨Or.inl rfl, fun p c => by simp⟩
          | ok fs2 =>
            have hl : lookupFd fs.files config.bifrost.state_file = some d :=
              lookup_of_openFile_ok fs _ d ho
            have hsh : fs2 = renamedFs config fs d := by
              by_cases hm : (config.bifrost.state_file,
                  with_extension config.bifrost.state_file ("v0.bak")) ∈ fs.renameFails
              · unfold Fs.rename at hr
                rw [if_pos hm] at hr
                exact absurd hr (by simp)
              · rw [rename_ok_shape fs _ _ d hm hl] at hr
                cases hr
                rfl
            rw [loadState_v0_ok config fs d y fs2 ho hp hv hr]
            exact ⟨Or.inr ⟨d, y, rfl, hp, hsh⟩, fun p c => by simp⟩

theorem certStep_mismatch (config : AppConfig) (fs : Fs) (id : String)
    (hfile : lookupFd fs.files config.bifrost.cert_file = some (FileData.pem id))
    (hru : config.bifrost.cert_file ∉ fs.unreadable)
    (hmm : id ≠ hue_bridge_id config.bridge.mac)
    (hw : config.bifrost.cert_file ∉ fs.writeFails) :
    certStep config fs = (Except.ok (), regenFs config fs) := by
  have hif : fs.isFile config.bifrost.cert_file = true := by
    simp [Fs.isFile, hfile]
  have ho : fs.openFile config.bifrost.cert_file = Except.ok (FileData.pem id) := by
    simp [Fs.openFile, hru, hfile]
  simp [certStep, hif, check_certificate, ho, hmm, generate_and_save, Fs.write, hw, regenFs]

/-- Claim C1: when the certificate file exists but its embedded identity
differs from the identity derived from the configured hardware
identifier, construction regenerates and persists a certificate with the
correct embedded identity at `cert_file` (visible in the final filesystem
whatever else happens), never fails with a certificate error, and — when
the remaining startup steps have nothing to object to (no state file at a
distinct path) — succeeds outright.  Assumes the backup sibling of the
state path does not collide with the certificate path (configs are
validated before construction). -/
theorem from_config_mismatched_cert_regenerates
    (config : AppConfig) (fs : Fs) (id : String)
    (hfile : lookupFd fs.files config.bifrost.cert_file = some (FileData.pem id))
    (hru : config.bifrost.cert_file ∉ fs.unreadable)
    (hmm : id ≠ hue_bridge_id config.bridge.mac)
    (hw : config.bifrost.cert_file ∉ fs.writeFails)
    (hbc : with_extension config.bifrost.state_file ("v0.bak") ≠ config.bifrost.cert_file) :
    certStep config fs = (Except.ok (), regenFs config fs) ∧
    lookupFd ((AppState.from_config config fs).2).files config.bifrost.cert_file =
      some (FileData.pem (hue_bridge_id config.bridge.mac)) ∧
    (∀ p c, (AppState.from_config config fs).1 ≠ Except.error (ApiError.certificate p c)) ∧
    (config.bifrost.state_file ≠ config.bifrost.cert_file →
      lookupFd fs.files config.bifrost.state_file = none →
      (AppState.from_config config fs).1 =
        Except.ok { conf := config, res := freshRes config }) := by
  have hcs := certStep_mismatch config fs id hfile hru hmm hw
  have hlk1 : lookupFd (regenFs config fs).files config.bifrost.cert_file =
      some (FileData.pem (hue_bridge_id config.bridge.mac)) := by
    simp [regenFs, lookupFd]
  obtain ⟨hfs2, herr⟩ := loadState_fs_and_errors config (regenFs config fs)
  cases hload : loadState config (regenFs config fs) with
  | mk r fs2 =>
    have hfc := from_config_of_certStep_loadState config fs (regenFs config fs) fs2 r hcs hload
    rw [hload] at hfs2 herr
    refine ⟨hcs, ?_, ?_, ?_⟩
    · rw [hfc]
      cases hfs2 with
      | inl h =>
        have h2 : fs2 = regenFs config fs := by simpa using h
        show lookupFd fs2.files config.bifrost.cert_file =
          some (FileData.pem (hue_bridge_id config.bridge.mac))
        rw [h2]
        exact hlk1
      | inr h =>
        obtain ⟨d, y, hod, hpy, hsh⟩ := h
        have hsh2 : fs2 = renamedFs config (regenFs config fs) d := by simpa using hsh
        have hld : lookupFd (regenFs config fs).files config.bifrost.state_file = some d :=
          lookup_of_openFile_ok (regenFs config fs) _ d hod
        have hsc : ¬config.bifrost.cert_file = config.bifrost.state_file := by
          intro hcol
          rw [← hcol, hlk1] at hld
          cases hld
          simp [parseYaml] at hpy
        have hcb : config.bifrost.cert_file ≠
            with_extension config.bifrost.state_file ("v0.bak") :=
          fun hc => hbc hc.symm
        have hgoal : lookupFd fs2.files config.bifrost.cert_file =
            some (FileData.pem (hue_bridge_id config.bridge.mac)) := by
          rw [hsh2]
          simp only [renamedFs, lookupFd, if_neg hcb]
          rw [lookupFd_eraseKey_other _ _ _ hcb,
            lookupFd_eraseKey_other _ _ _ hsc, hlk1]
        simpa using hgoal
    · intro p c
      rw [hfc]
      cases r with
      | error e =>
        intro hq
        exact herr p c (by simpa using hq)
      | ok res => simp
    · intro hsne hnone
      have hn1 : lookupFd (regenFs config fs).files config.bifrost.state_file = none := by
        have hns : ¬config.bifrost.state_file = config.bifrost.cert_file := hsne
        simp only [regenFs, lookupFd, if_neg hns]
        rw [lookupFd_eraseKey_other _ _ _ hsne]
        exact hnone
      obtain ⟨e, he⟩ := openFile_err_of_lookup_none (regenFs config fs) _ hn1
      have hld := loadState_openErr config (regenFs config fs) e he
      rw [hld] at hload
      cases hload
      rw [hfc]

/-- Witness for C1 at the concrete mismatched-certificate fixture. -/
theorem from_config_mismatched_cert_regenerates_witness :
    lookupFd ((AppState.from_config cfgW fsMismatch).2).files cfgW.bifrost.cert_file =
      some (FileData.pem (hue_bridge_id cfgW.bridge.mac)) ∧
    (AppState.from_config cfgW fsMismatch).1 =
      Except.ok { conf := cfgW, res := freshRes cfgW } := by
  have h := from_config_mismatched_cert_regenerates cfgW fsMismatch ("wrongid")
    (by decide) (by decide) (by decide) (by decide) (by decide)
  exact ⟨h.2.1, h.2.2.2 (by decide) (by decide)⟩

theorem from_pem_file_ok (p : String) (fs : Fs) (c : RustlsConfig)
    (h : RustlsConfig.from_pem_file p p fs = Except.ok c) :
    c.certSource = c.keySource ∧ fs.openFile p = Except.ok c.certSource := by
  unfold RustlsConfig.from_pem_file at h
  cases ho : fs.openFile p with
  | error e => rw [ho] at h; exact absurd h (by simp)
  | ok cd =>
    rw [ho] at h
    cases cd with
    | pem id =>
      cases h
      exact ⟨rfl, rfl⟩
    | yaml doc => exact absurd h (by simp)
    | malformed i => exact absurd h (by simp)

theorem tls_config_ok_iff (s : AppState) (fs : Fs) (c : RustlsConfig) :
    s.tls_config fs = Except.ok c ↔
    RustlsConfig.from_pem_file s.conf.bifrost.cert_file
      s.conf.bifrost.cert_file fs = Except.ok c := by
  unfold AppState.tls_config
  cases hf : RustlsConfig.from_pem_file s.conf.bifrost.cert_file
      s.conf.bifrost.cert_file fs with
  | ok c2 => simp
  | error e => simp

/-- Claim C7: `tls_config` reads the certificate material from the
configured `cert_file` path at call time — its result is a function of
the file's content as it stands at the call (so rotation on disk is
picked up and nothing is cached) — and a successful result uses that
single PEM file as both the certificate source and the key source. -/
theorem tls_config_rereads_single_source
    (s : AppState) (fs fs2 : Fs) (c : RustlsConfig)
    (hsame : fs.openFile s.conf.bifrost.cert_file = fs2.openFile s.conf.bifrost.cert_file)
    (hok : s.tls_config fs = Except.ok c) :
    s.tls_config fs2 = Except.ok c ∧
    c.certSource = c.keySource ∧
    fs.openFile s.conf.bifrost.cert_file = Except.ok c.certSource := by
  have hcong : RustlsConfig.from_pem_file s.conf.bifrost.cert_file
      s.conf.bifrost.cert_file fs =
    RustlsConfig.from_pem_file s.conf.bifrost.cert_file s.conf.bifrost.cert_file fs2 := by
    unfold RustlsConfig.from_pem_file
    rw [hsame]
  have hfp : RustlsConfig.from_pem_file s.conf.bifrost.cert_file
      s.conf.bifrost.cert_file fs = Except.ok c := (tls_config_ok_iff s fs c).mp hok
  obtain ⟨h1, h2⟩ := from_pem_file_ok _ fs c hfp
  refine ⟨?_, h1, h2⟩
  exact (tls_config_ok_iff s fs2 c).mpr (hcong ▸ hfp)

/-- Witness for C7: replacing the rest of the filesystem while keeping
the certificate file's content yields the same TLS configuration, built
from that single file. -/
theorem tls_config_rereads_single_source_witness :
    stA.tls_config fsMissing = Except.ok tlsW ∧
    tlsW.certSource = tlsW.keySource ∧
    fsV0.openFile stA.conf.bifrost.cert_file = Except.ok tlsW.certSource :=
  tls_config_rereads_single_source stA fsV0 fsMissing tlsW (by decide) (by decide)

/-- Claim C8: every failure of `tls_config` is returned to the caller as
a typed certificate error carrying the configured certificate path and
the underlying cause (the model is a total function, so no panic or
abort is possible). -/
theorem tls_config_failure_typed
    (s : AppState) (fs : Fs) (e : ApiError) (msg : String)
    (herr : s.tls_config fs = Except.error e)
    (hm : RustlsConfig.from_pem_file s.conf.bifrost.cert_file
      s.conf.bifrost.cert_file fs = Except.error msg) :
    e = ApiError.certificate s.conf.bifrost.cert_file msg ∧
    e.reportsPath = some s.conf.bifrost.cert_file := by
  unfold AppState.tls_config at herr
  rw [hm] at herr
  cases herr
  exact ⟨rfl, rfl⟩

/-- Witness for C8: on an empty filesystem the TLS load fails and the
error is the certificate error naming the configured path and cause. -/
theorem tls_config_failure_typed_witness :
    ApiError.certificate ("cert.pem") ("not found") =
      ApiError.certificate stA.conf.bifrost.cert_file ("not found") ∧
    (ApiError.certificate ("cert.pem") ("not found")).reportsPath =
      some stA.conf.bifrost.cert_file :=
  tls_config_failure_typed stA fsEmpty
    (ApiError.certificate ("cert.pem") ("not found")) ("not found")
    (by decide) (by decide)

/-- Claim C9: the full descriptor carries an access-credential map with
exactly one entry, keyed by the caller identifier, both timestamps set to
the current clock reading, alongside the short descriptor and the network
configuration taken from the runtime config. -/
theorem api_config_shape (s : AppState) (username : String) (now : Nat) :
    (s.api_config username now).whitelist =
      [(username, { create_date := now, last_use_date := now, name := "User#foo" })] ∧
    (s.api_config username now).short_config = s.api_short_config ∧
    (s.api_config username now).ipaddress = s.conf.bridge.ipaddress ∧
    (s.api_config username now).netmask = s.conf.bridge.netmask ∧
    (s.api_config username now).gateway = s.conf.bridge.gateway ∧
    (s.api_config username now).timezone = s.conf.bridge.timezone := by
  simp [AppState.api_config]

/-- Claim C10: `api_short_config` is a pure function of the configuration
(equal configurations give equal descriptors), its bridge id is the
identity derived from the configured hardware identifier, its mac is that
identifier, and the remaining fields are the defaults. -/
theorem api_short_config_deterministic (s1 s2 : AppState)
    (h : s1.conf = s2.conf) :
    s1.api_short_config = s2.api_short_config ∧
    s1.api_short_config.bridgeid = hue_bridge_id s1.conf.bridge.mac ∧
    s1.api_short_config.mac = s1.conf.bridge.mac ∧
    s1.api_short_config.apiversion = ApiShortConfig.default.apiversion ∧
    s1.api_short_config.swversion = ApiShortConfig.default.swversion ∧
    s1.api_short_config.name = ApiShortConfig.default.name := by
  refine ⟨?_, rfl, rfl, rfl, rfl, rfl⟩
  simp [AppState.api_short_config, h]

/-- Witness for C10: two handles sharing a configuration but holding
different resources produce the same short descriptor, with the derived
bridge id and configured mac. -/
theorem api_short_config_deterministic_witness :
    stA.api_short_config = stB.api_short_config ∧
    stA.api_short_config.bridgeid = hue_bridge_id stA.conf.bridge.mac ∧
    stA.api_short_config.mac = stA.conf.bridge.mac ∧
    stA.api_short_config.apiversion = ApiShortConfig.default.apiversion ∧
    stA.api_short_config.swversion = ApiShortConfig.default.swversion ∧
    stA.api_short_config.name = ApiShortConfig.default.name :=
  api_short_config_deterministic stA stB (by decide)

end Bifrost
